import Mathlib

/-!
Shallow embedding of the `macthemes.garden-data` sync pipeline
(`src/dump-airtable.ts`, with the variant in `src/unnamed/part_000`):
record normalization, attachment path computation and caching, record
resolution and validity filtering, filesystem reconciliation, and the
archive mirror with checksum comparison.

JavaScript strings are modelled as Lean `String` values; the JS string
methods used by the source (`toLowerCase`, `endsWith`, `split(" ")`,
`trim`) are embedded as explicit functions over the character data, and
JS truthiness of `string | undefined` values is the Boolean
"present and nonempty".
-/

namespace MacThemes

/-- Whitespace as used by trimming: space, tab, carriage return, newline. -/
def jsWS (c : Char) : Bool := c.isWhitespace

/-- Embedding of `String.prototype.toLowerCase` (ASCII case folding). -/
def jsToLower (s : String) : String := ⟨s.data.map Char.toLower⟩

/-- Embedding of `String.prototype.endsWith`. -/
def jsEndsWith (s suffix : String) : Bool := suffix.data.isSuffixOf s.data

/-- Split a character list at every occurrence of the separator character,
keeping empty pieces, as `String.prototype.split` does with a one-character
separator. -/
def splitSp : List Char → List (List Char)
  | [] => [[]]
  | c :: cs =>
    if c = ' ' then [] :: splitSp cs
    else
      match splitSp cs with
      | [] => [[c]]
      | t :: ts => (c :: t) :: ts

/-- Embedding of `String.prototype.split(" ")`. -/
def jsSplitSpace (s : String) : List String := (splitSp s.data).map (fun l => ⟨l⟩)

/-- Drop leading and trailing whitespace from a character list. -/
def trimChars (l : List Char) : List Char :=
  ((l.dropWhile jsWS).reverse.dropWhile jsWS).reverse

/-- Embedding of `String.prototype.trim`. -/
def jsTrim (s : String) : String := ⟨trimChars s.data⟩

/-- JS truthiness of a `string | undefined` value: present and nonempty. -/
def jsTruthyS (o : Option String) : Bool :=
  match o with
  | none => false
  | some s => s != ""

/-- The `|| undefined` idiom applied to a `string | undefined` value:
a falsy value (absent or empty string) becomes absent. -/
def jsOrUndef (o : Option String) : Option String :=
  match o with
  | none => none
  | some s => if s = "" then none else some s

/-- An Airtable attachment object: stable id, ephemeral download url,
original filename. -/
structure Attachment where
  id : String
  url : String
  filename : String
  deriving DecidableEq, Repr

/-- A `Date` object built by `new Date(...)`: always a truthy object, even
when the input is missing (Invalid Date). The raw input is kept. -/
structure JsDate where
  raw : Option String
  deriving DecidableEq, Repr

/-- The raw Airtable fields read by the normalizer, each possibly missing.
A field of the wrong runtime type is out of scope of this model; the
unchecked TS casts are modelled as typed optional fields. -/
structure RawFields where
  fieldName : Option String
  fieldAuthors : Option String
  fieldYear : Option String
  fieldAbout : Option (List Attachment)
  fieldShowcase : Option (List Attachment)
  fieldArchiveFile : Option (List Attachment)
  fieldArchiveName2 : Option String
  fieldKsaSampler : Option (List Attachment)
  fieldCreated : Option String
  deriving DecidableEq, Repr

/-- The fixed internal record shape produced by the normalizer
(the element type of `normalizedRecords` in the source). -/
structure NormalizedRecord where
  name : Option String
  authors : Option String
  year : Option String
  about : Option Attachment
  showcase : Option Attachment
  archiveFile : Option Attachment
  archiveFileName2 : Option String
  ksaSampler : Option Attachment
  created : JsDate
  deriving DecidableEq, Repr

/-- Normalize one raw record: fixed-name field extraction; a `?.[0]` on an
attachment-array field takes the first element and yields absent when the
field is missing or the array is empty. -/
def normalizeRecord (r : RawFields) : NormalizedRecord :=
  { name := r.fieldName
    authors := r.fieldAuthors
    year := r.fieldYear
    about := r.fieldAbout.bind List.head?
    showcase := r.fieldShowcase.bind List.head?
    archiveFile := r.fieldArchiveFile.bind List.head?
    archiveFileName2 := r.fieldArchiveName2
    ksaSampler := r.fieldKsaSampler.bind List.head?
    created := ⟨r.fieldCreated⟩ }

/-- The `records.map(...)` producing `normalizedRecords` in the source. -/
def normalizedRecords (records : List RawFields) : List NormalizedRecord :=
  records.map normalizeRecord

/-- The value returned by `downloadAttachment`:
`{ id, filepath, filename }`. -/
structure DownloadedFile where
  id : String
  filepath : String
  filename : String
  deriving DecidableEq, Repr

/-- The deterministic local target path computed by `downloadAttachment` in
`dump-airtable.ts`: the composite `prefix + id + "-" + filename` is
lowercased as a whole and placed under `attachments/`. -/
def attachmentPath (role : String) (a : Attachment) : String :=
  "attachments/" ++ jsToLower (role ++ a.id ++ "-" ++ a.filename)

/-- The descriptor `downloadAttachment` returns (identical whether the file
was cached or freshly fetched); absent input gives absent output. -/
def downloadAttachmentResult (att : Option Attachment) (role : String) :
    Option DownloadedFile :=
  att.map (fun a => ⟨a.id, attachmentPath role a, a.filename⟩)

/-- The three per-record `downloadAttachment` calls of the download stage,
in source order (about, ksa-sampler, showcase), with absent results
filtered out. -/
def recordFilePaths (r : NormalizedRecord) : List DownloadedFile :=
  [downloadAttachmentResult r.about "about-",
   downloadAttachmentResult r.ksaSampler "ksa-sampler-",
   downloadAttachmentResult r.showcase "showcase-"].filterMap id

/-- The `filePaths` list produced by `async.flatMapLimit` over all records
(results concatenated in input order). -/
def filePaths (records : List NormalizedRecord) : List DownloadedFile :=
  records.flatMap recordFilePaths

/-- The condition `record.archiveFile?.filename?.endsWith(".sit")` coerced
to a Boolean (an absent chain is falsy). -/
def sitCond (r : NormalizedRecord) : Bool :=
  match r.archiveFile with
  | some a => jsEndsWith a.filename ".sit"
  | none => false

/-- The `archiveName` ternary of the resolver:
`(archiveFile?.filename?.endsWith(".sit") ? archiveFile?.filename
: archiveFileName2) || undefined`. -/
def archiveName (r : NormalizedRecord) : Option String :=
  jsOrUndef (if sitCond r then r.archiveFile.map (·.filename) else r.archiveFileName2)

/-- The output record shape: the spread of the normalized record with
attachment fields replaced by looked-up local paths, `archiveFile`
cleared, and `archiveFilename` added. -/
structure ResolvedRecord where
  name : Option String
  authors : Option String
  year : Option String
  about : Option String
  showcase : Option String
  archiveFile : Option Attachment
  archiveFileName2 : Option String
  ksaSampler : Option String
  created : JsDate
  archiveFilename : Option String
  deriving DecidableEq, Repr

/-- The join `filePaths.find((f) => f.id === record.<field>?.id)?.filepath`:
linear scan by id equality; an absent attachment matches nothing. -/
def findById (fps : List DownloadedFile) (att : Option Attachment) : Option String :=
  match att with
  | none => none
  | some a => (fps.find? (fun f => f.id == a.id)).map (·.filepath)

/-- The `.map((record) => ...)` body of `normalizedRecordsWithFilePaths`. -/
def resolveRecord (fps : List DownloadedFile) (r : NormalizedRecord) : ResolvedRecord :=
  { name := r.name
    authors := r.authors
    year := r.year
    showcase := findById fps r.showcase
    about := findById fps r.about
    archiveFile := none
    archiveFileName2 := r.archiveFileName2
    ksaSampler := findById fps r.ksaSampler
    created := r.created
    archiveFilename := archiveName r }

/-- JS truthiness of an `Attachment | undefined` value: any object is
truthy. -/
def jsTruthyA (o : Option Attachment) : Bool := o.isSome

/-- The count of truthy field values of a resolved record, as computed by
`Object.values(f).filter((v) => !!v).length`; `created` is a `Date`
object, hence always truthy. -/
def truthyCount (f : ResolvedRecord) : Nat :=
  ([jsTruthyS f.name, jsTruthyS f.authors, jsTruthyS f.year,
    jsTruthyS f.about, jsTruthyS f.showcase, jsTruthyA f.archiveFile,
    jsTruthyS f.archiveFileName2, jsTruthyS f.ksaSampler, true,
    jsTruthyS f.archiveFilename].filter id).length

/-- The first output filter:
`(f) => !!f && Object.values(f).filter((v) => !!v).length`. -/
def hasTruthyField (f : ResolvedRecord) : Bool := truthyCount f != 0

/-- The validity filter of the resolver: name, year-or-authors, and the
four resolved asset/archive fields must all be truthy. -/
def isValid (f : ResolvedRecord) : Bool :=
  jsTruthyS f.name &&
    (jsTruthyS f.year || jsTruthyS f.authors) &&
    jsTruthyS f.about &&
    jsTruthyS f.showcase &&
    jsTruthyS f.archiveFilename &&
    jsTruthyS f.ksaSampler

/-- `normalizedRecordsWithFilePaths`: map each normalized record to its
resolved form, then apply the two output filters. -/
def normalizedRecordsWithFilePaths (fps : List DownloadedFile)
    (records : List NormalizedRecord) : List ResolvedRecord :=
  ((records.map (resolveRecord fps)).filter hasTruthyField).filter isValid

/-- The full snapshot content of a run of `dump-airtable.ts`, as a function
of the normalized records. -/
def pipelineOutput (records : List NormalizedRecord) : List ResolvedRecord :=
  normalizedRecordsWithFilePaths (filePaths records) records

/-- `allFiles`: the asset paths referenced by the output records, in
source order (about, ksaSampler, showcase), possibly-absent entries kept. -/
def allFiles (rs : List ResolvedRecord) : List (Option String) :=
  rs.flatMap (fun r => [r.about, r.ksaSampler, r.showcase])

/-- `filesToDelete`: the existing listing, with falsy entries dropped, then
restricted to files not referenced by any output record. -/
def filesToDelete (existing : List String) (rs : List ResolvedRecord) : List String :=
  (existing.filter (fun f => f != "")).filter
    (fun file => !((allFiles rs).contains (some file)))

/-! ### Filesystem and network model for the effectful parts -/

/-- The local filesystem: a map from path to file content (absent = no
file). File contents are modelled as strings of bytes. -/
def FS := String → Option String

/-- Write a file (create or overwrite). -/
def setFS (fs : FS) (p v : String) : FS :=
  fun q => if q = p then some v else fs q

/-- Parse the checksum out of a fetched manifest:
`md5FileContent.split(" ")[0]?.trim()`. -/
def parseMd5 (content : String) : Option String :=
  ((jsSplitSpace content).head?).map jsTrim

/-- The remote manifest URL for an archive:
`https://files.macthemes.garden/<archiveFilename>.md5`. -/
def manifestUrl (af : String) : String :=
  "https://files.macthemes.garden/" ++ af ++ ".md5"

/-- The remote content URL for an archive. -/
def archiveUrl (af : String) : String :=
  "https://files.macthemes.garden/" ++ af

/-- The local path of a mirrored archive: `archives/<archiveFilename>`. -/
def archivePath (af : String) : String := "archives/" ++ af

/-- Result of one `downloadArchive` call: the filesystem after the call,
the log lines it printed, and how many archive-content fetches it made. -/
structure ArchResult where
  fs : FS
  log : List String
  contentFetches : Nat

/-- `downloadArchive`, with the surrounding `try/catch`: a failed fetch
(modelled as `none` from the network) is caught and logged, leaving the
filesystem unchanged. The remote checksum is compared with the MD5 hash of
the existing local content (`hash` stands for the MD5 function); on a
match the archive is skipped, otherwise the content is fetched and the
archive and its manifest are both written. -/
def downloadArchive (hash : String → String) (remote : String → Option String)
    (fs : FS) (af : String) : ArchResult :=
  match remote (manifestUrl af) with
  | none => ⟨fs, ["[ERROR] could not download " ++ af], 0⟩
  | some md5FileContent =>
    let skip : Bool :=
      match fs (archivePath af) with
      | some content => some (hash content) == parseMd5 md5FileContent
      | none => false
    if skip then ⟨fs, ["[INFO] skipped " ++ af], 0⟩
    else
      match remote (archiveUrl af) with
      | none => ⟨fs, ["[ERROR] could not download " ++ af], 1⟩
      | some body =>
        ⟨setFS (setFS fs (archivePath af) body) (archivePath af ++ ".md5") md5FileContent,
         ["[INFO] downloaded " ++ af], 1⟩

/-- The archive-mirror stage: `async.mapLimit(archives, 10, downloadArchive)`
over the deduplicated archive list, each call isolated by its own
`try/catch`. -/
def runArchives (hash : String → String) (remote : String → Option String)
    (fs : FS) : List String → ArchResult
  | [] => ⟨fs, [], 0⟩
  | a :: rest =>
    let r1 := downloadArchive hash remote fs a
    let r2 := runArchives hash remote r1.fs rest
    ⟨r2.fs, r1.log ++ r2.log, r1.contentFetches + r2.contentFetches⟩

/-- Result of one effectful `downloadAttachment` call: the filesystem
after the call, the returned descriptor, and how many fetches it made. -/
structure DLResult where
  fs : FS
  result : Option DownloadedFile
  fetched : Nat

/-- `downloadAttachment` with its filesystem effects: absent input returns
absent; if a file already exists at the deterministic path the descriptor
is returned with no fetch and no write; otherwise the content is fetched
from the attachment url and written to the path. -/
def downloadAttachmentFS (remote : String → String) (fs : FS)
    (att : Option Attachment) (role : String) : DLResult :=
  match att with
  | none => ⟨fs, none, 0⟩
  | some a =>
    let fp := attachmentPath role a
    match fs fp with
    | some _ => ⟨fs, some ⟨a.id, fp, a.filename⟩, 0⟩
    | none => ⟨setFS fs fp (remote a.url), some ⟨a.id, fp, a.filename⟩, 1⟩

/-- The download stage threaded over the filesystem: for each record the
three role downloads run in source order; descriptors are collected with
absent ones filtered out, and fetch counts are summed. -/
def runDownloads (remote : String → String) (fs : FS) :
    List NormalizedRecord → FS × List DownloadedFile × Nat
  | [] => (fs, [], 0)
  | r :: rs =>
    let d1 := downloadAttachmentFS remote fs r.about "about-"
    let d2 := downloadAttachmentFS remote d1.fs r.ksaSampler "ksa-sampler-"
    let d3 := downloadAttachmentFS remote d2.fs r.showcase "showcase-"
    let rest := runDownloads remote d3.fs rs
    (rest.1, [d1.result, d2.result, d3.result].filterMap id ++ rest.2.1,
     d1.fetched + d2.fetched + d3.fetched + rest.2.2)

/-- A role attachment is warm when it is absent or its deterministic
target path already holds a file. -/
def warmAtt (fs : FS) (role : String) (att : Option Attachment) : Bool :=
  match att with
  | none => true
  | some a => (fs (attachmentPath role a)).isSome

/-- A filesystem is warm for a record list when every record's three role
attachments are warm. -/
def warmFor (fs : FS) (rs : List NormalizedRecord) : Bool :=
  rs.all (fun r =>
    warmAtt fs "about-" r.about && warmAtt fs "ksa-sampler-" r.ksaSampler &&
      warmAtt fs "showcase-" r.showcase)

/-- The local path formula the spec's words describe for an attachment:
the attachments directory joined with `<prefix><id>-<lowercased filename>`,
only the original filename case-folded. Stated for comparison with
`attachmentPath`, which is the path the code computes. -/
def specAttachmentPath (role : String) (a : Attachment) : String :=
  "attachments/" ++ role ++ a.id ++ "-" ++ jsToLower a.filename

/-! ### Concrete inputs used by witnesses -/

/-- A raw record with every field absent (in particular `Name`). -/
def rawMissingName : RawFields :=
  ⟨none, none, none, none, none, none, none, none, none⟩

/-- A normalized record whose archive attachment filename ends in `.sit`. -/
def recSit : NormalizedRecord :=
  ⟨some "n", none, some "1999", none, none, some ⟨"a", "u", "Theme.sit"⟩,
   some "theme-v2.zip", none, ⟨none⟩⟩

/-- A normalized record whose archive attachment filename does not end in
`.sit`. -/
def recZip : NormalizedRecord :=
  ⟨some "n", none, some "1999", none, none, some ⟨"a", "u", "Theme.zip"⟩,
   some "theme-v2.zip", none, ⟨none⟩⟩

/-- A resolved record referencing the asset paths `A.png` and `C.png`. -/
def resolvedEx : ResolvedRecord :=
  ⟨some "n", none, some "1999", some "A.png", some "C.png", none, none,
   some "A.png", ⟨none⟩, some "t.sit"⟩

/-- A raw record with a name but neither year nor authors. -/
def rawNoYear : RawFields :=
  ⟨some "Theme X", none, none, none, none, none, none, none, none⟩

/-- A one-file glob listing under the directory the reconciler scans. -/
def existGlob : List String := ["public/themes/attachments/old.png"]

/-- A hash function for witnesses: every content hashes to `"aa"`. -/
def hashW : String → String := fun _ => "aa"

/-- The empty local filesystem. -/
def fsEmpty : FS := fun _ => none

/-- A filesystem holding one local archive copy with content `"X"`. -/
def fsArch : FS := fun p => if p = "archives/t.sit" then some "X" else none

/-- A remote serving a matching manifest and a body for `t.sit`. -/
def remoteArch : String → Option String := fun u =>
  if u = manifestUrl "t.sit" then some "aa t.sit"
  else if u = archiveUrl "t.sit" then some "B" else none

/-- A remote on which every fetch fails. -/
def remoteFail : String → Option String := fun _ => none

/-- A concrete attachment reference. -/
def attW : Attachment := ⟨"a1", "u", "x.png"⟩

/-- A filesystem already holding `attW`'s file at its deterministic path. -/
def fsWarm : FS := fun p =>
  if p = attachmentPath "about-" attW then some "B" else none

/-- An attachment remote serving `"B"` for every url. -/
def remoteB : String → String := fun _ => "B"

end MacThemes

namespace MacThemes

/-! ### Helper lemmas -/

/-- Every resolved record has a truthy field (`created` is always a truthy
`Date` object), so the first output filter never drops anything. -/
theorem hasTruthyField_eq_true (f : ResolvedRecord) : hasTruthyField f = true := by
  have h : (true : Bool) ∈
      ([jsTruthyS f.name, jsTruthyS f.authors, jsTruthyS f.year,
        jsTruthyS f.about, jsTruthyS f.showcase, jsTruthyA f.archiveFile,
        jsTruthyS f.archiveFileName2, jsTruthyS f.ksaSampler, true,
        jsTruthyS f.archiveFilename].filter id) :=
    List.mem_filter.2 ⟨by simp, rfl⟩
  have hpos := List.length_pos.2 (List.ne_nil_of_mem h)
  have hb : truthyCount f ≠ 0 := by
    unfold truthyCount
    omega
  simp only [hasTruthyField, bne_iff_ne, ne_eq]
  exact hb

/-- A string ending in `.sit` is nonempty. -/
theorem ne_empty_of_jsEndsWith_sit {s : String} (h : jsEndsWith s ".sit" = true) :
    s ≠ "" := by
  intro he
  rw [he] at h
  exact absurd h (by decide)

/-- Lowercasing distributes over string concatenation. -/
theorem jsToLower_append (s t : String) :
    jsToLower (s ++ t) = jsToLower s ++ jsToLower t := by
  apply String.ext
  simp [jsToLower, String.data_append]

/-- Dropping leading whitespace from a whitespace-free list is the
identity. -/
theorem dropWhile_jsWS_eq_self {l : List Char} (h : ∀ ch ∈ l, jsWS ch = false) :
    l.dropWhile jsWS = l := by
  cases l with
  | nil => rfl
  | cons a t => simp [List.dropWhile_cons, h a (List.mem_cons_self a t)]

/-- Trimming a whitespace-free list is the identity. -/
theorem trimChars_eq_self {l : List Char} (h : ∀ ch ∈ l, jsWS ch = false) :
    trimChars l = l := by
  unfold trimChars
  rw [dropWhile_jsWS_eq_self h,
    dropWhile_jsWS_eq_self (fun ch hc => h ch (List.mem_reverse.1 hc))]
  exact List.reverse_reverse l

/-- Splitting at the first space after a space-free chunk isolates the
chunk. -/
theorem splitSp_append_space (l1 l2 : List Char) (h : ∀ ch ∈ l1, ch ≠ ' ') :
    splitSp (l1 ++ ' ' :: l2) = l1 :: splitSp l2 := by
  induction l1 with
  | nil => simp [splitSp]
  | cons a t ih =>
    have ha : a ≠ ' ' := h a (List.mem_cons_self a t)
    have ih' := ih (fun ch hc => h ch (List.mem_cons_of_mem a hc))
    simp [splitSp, ha, ih']

/-! ### Claim theorems -/

/-- Claim C10: the record normalizer is a pure total function; its output
sequence has exactly the input's length, and missing fields (or an empty
attachment array) become absent values rather than failing. -/
theorem normalizedRecords_length_total (records : List RawFields) (raw : RawFields) :
    (normalizedRecords records).length = records.length ∧
    (raw.fieldName = none → (normalizeRecord raw).name = none) ∧
    (raw.fieldAbout = none → (normalizeRecord raw).about = none) ∧
    (raw.fieldAbout = some [] → (normalizeRecord raw).about = none) := by
  refine ⟨by simp [normalizedRecords], ?_, ?_, ?_⟩ <;>
    intro h <;> simp [normalizeRecord, h]

/-- Witness for C10 at a concrete record with every field missing. -/
theorem normalizedRecords_length_total_witness :
    (normalizedRecords [rawMissingName]).length = [rawMissingName].length ∧
      (normalizeRecord rawMissingName).name = none :=
  ⟨(normalizedRecords_length_total [rawMissingName] rawMissingName).1,
   (normalizedRecords_length_total [rawMissingName] rawMissingName).2.1 rfl⟩

/-- Claim C5: the resolved `archiveFilename` is `archiveFile.filename` when
that filename ends in `.sit`; otherwise it is `archiveFileName2` when that
qualifies (present and nonempty), and absent when neither qualifies. -/
theorem archiveName_rule (r : NormalizedRecord) :
    (∀ a, r.archiveFile = some a → jsEndsWith a.filename ".sit" = true →
        archiveName r = some a.filename) ∧
    (sitCond r = false → ∀ s, r.archiveFileName2 = some s → s ≠ "" →
        archiveName r = some s) ∧
    (sitCond r = false → jsTruthyS r.archiveFileName2 = false →
        archiveName r = none) := by
  refine ⟨?_, ?_, ?_⟩
  · intro a ha hsit
    have hc : sitCond r = true := by simp [sitCond, ha, hsit]
    have hne : a.filename ≠ "" := ne_empty_of_jsEndsWith_sit hsit
    simp [archiveName, hc, ha, jsOrUndef, hne]
  · intro hc s hs hne
    simp [archiveName, hc, hs, jsOrUndef, hne]
  · intro hc ht
    cases h2 : r.archiveFileName2 with
    | none => simp [archiveName, hc, h2, jsOrUndef]
    | some s =>
      have hse : s = "" := by simpa [jsTruthyS, h2] using ht
      simp [archiveName, hc, h2, jsOrUndef, hse]

/-- Witness for C5 at the spec's two examples: a `.sit` archive attachment
wins, a non-`.sit` one falls back to `archiveFileName2`. -/
theorem archiveName_rule_witness :
    archiveName recSit = some "Theme.sit" ∧
      archiveName recZip = some "theme-v2.zip" :=
  ⟨(archiveName_rule recSit).1 ⟨"a", "u", "Theme.sit"⟩ rfl (by decide),
   (archiveName_rule recZip).2.1 (by decide) "theme-v2.zip" rfl (by decide)⟩

/-- Claim C2 (counterexample): the code lowercases the whole composed name,
so for an attachment id containing uppercase letters the computed path
differs from the spec's formula, which case-folds only the filename. -/
theorem attachmentPath_spec_formula_cex :
    attachmentPath "about-" ⟨"recABC", "u", "Foo.PNG"⟩ ≠
      specAttachmentPath "about-" ⟨"recABC", "u", "Foo.PNG"⟩ ∧
    attachmentPath "about-" ⟨"recABC", "u", "Foo.PNG"⟩ =
      "attachments/about-recabc-foo.png" := by decide

/-- Claim C2 (amended): the target path is the attachments directory joined
with the lowercasing of the whole composite `prefix + id + "-" + filename`;
when the role prefix and the id are already lowercase this coincides with
the spec's formula, and the spec's concrete example holds. -/
theorem attachmentPath_lowercases_whole_name (role : String) (a : Attachment) :
    attachmentPath role a =
      "attachments/" ++ jsToLower (role ++ a.id ++ "-" ++ a.filename) ∧
    (jsToLower role = role → jsToLower a.id = a.id →
      attachmentPath role a = specAttachmentPath role a) ∧
    attachmentPath "about-" ⟨"rec123", "u", "Foo.PNG"⟩ =
      "attachments/about-rec123-foo.png" := by
  refine ⟨rfl, ?_, by decide⟩
  intro h1 h2
  apply String.ext
  have h1' : role.data.map Char.toLower = role.data := congrArg String.data h1
  have h2' : a.id.data.map Char.toLower = a.id.data := congrArg String.data h2
  simp [attachmentPath, specAttachmentPath, jsToLower, String.data_append, h1', h2']

/-- Witness for C2 (amended) at the spec's own example input. -/
theorem attachmentPath_lowercases_whole_name_witness :
    attachmentPath "about-" ⟨"rec123", "u", "Foo.PNG"⟩ =
      specAttachmentPath "about-" ⟨"rec123", "u", "Foo.PNG"⟩ :=
  (attachmentPath_lowercases_whole_name "about-" ⟨"rec123", "u", "Foo.PNG"⟩).2.1
    (by decide) (by decide)

/-- Claim C9 (counterexample): a manifest whose checksum is followed by a
tab is not parsed to the checksum — the code splits on a literal space
only, and trimming does not remove interior whitespace. -/
theorem parseMd5_tab_cex :
    parseMd5 ("abc" ++ "\t" ++ "x") ≠ some "abc" ∧
      parseMd5 ("abc" ++ "\t" ++ "x") = some "abc\tx" := by decide

/-- Claim C9 (amended): the parsed checksum is the first space-delimited
token of the manifest, trimmed; for a manifest of the form
`<checksum><space><anything>` with a whitespace-free checksum the parsed
value is exactly the checksum. -/
theorem parseMd5_first_space_token (c rest : String)
    (h : ∀ ch ∈ c.data, jsWS ch = false) :
    parseMd5 (c ++ " " ++ rest) = some c := by
  have hsp : ∀ ch ∈ c.data, ch ≠ ' ' := by
    intro ch hc he
    have hw := h ch hc
    rw [he] at hw
    exact absurd hw (by decide)
  have hdata : (c ++ " " ++ rest).data = c.data ++ ' ' :: rest.data := by
    rw [String.data_append, String.data_append, List.append_assoc]
    rfl
  unfold parseMd5 jsSplitSpace
  rw [hdata, splitSp_append_space c.data rest.data hsp]
  show some (jsTrim ⟨c.data⟩) = some c
  unfold jsTrim
  rw [trimChars_eq_self h]

/-- Witness for C9 (amended) at a concrete space-separated manifest. -/
theorem parseMd5_first_space_token_witness :
    parseMd5 ("abc" ++ " " ++ "file.sit") = some "abc" :=
  parseMd5_first_space_token "abc" "file.sit" (by decide)

/-- Claim C1: a resolved record appears in the output snapshot iff it is
the resolution of an input record and passes the validity invariant; in
particular a raw record missing `Name`, or missing both `Year` and
`Author(s)`, resolves to an invalid record and is dropped entirely. -/
theorem snapshot_mem_iff_valid (fps : List DownloadedFile)
    (records : List NormalizedRecord) (x : ResolvedRecord) (raw : RawFields) :
    (x ∈ normalizedRecordsWithFilePaths fps records ↔
      x ∈ records.map (resolveRecord fps) ∧ isValid x = true) ∧
    (jsTruthyS raw.fieldName = false →
      isValid (resolveRecord fps (normalizeRecord raw)) = false) ∧
    (jsTruthyS raw.fieldYear = false → jsTruthyS raw.fieldAuthors = false →
      isValid (resolveRecord fps (normalizeRecord raw)) = false) := by
  refine ⟨?_, ?_, ?_⟩
  · simp [normalizedRecordsWithFilePaths, List.mem_filter, hasTruthyField_eq_true]
  · intro h
    simp [isValid, resolveRecord, normalizeRecord, h]
  · intro h1 h2
    simp [isValid, resolveRecord, normalizeRecord, h1, h2]

/-- Witness for C1: a record with no name, and one with neither year nor
authors, both fail the validity filter. -/
theorem snapshot_mem_iff_valid_witness :
    isValid (resolveRecord [] (normalizeRecord rawMissingName)) = false ∧
      isValid (resolveRecord [] (normalizeRecord rawNoYear)) = false :=
  ⟨(snapshot_mem_iff_valid [] [] resolvedEx rawMissingName).2.1 (by decide),
   (snapshot_mem_iff_valid [] [] resolvedEx rawNoYear).2.2 (by decide) (by decide)⟩

/-- Claim C3: for a listing with no empty entries, the reconciler's delete
list holds exactly the existing files not referenced by any output
record. -/
theorem filesToDelete_eq_diff (existing : List String) (rs : List ResolvedRecord)
    (hne : ∀ f ∈ existing, f ≠ "") (file : String) :
    file ∈ filesToDelete existing rs ↔
      (file ∈ existing ∧ some file ∉ allFiles rs) := by
  constructor
  · intro hmem
    have h1 := List.mem_filter.1 hmem
    have h2 := List.mem_filter.1 h1.1
    refine ⟨h2.1, ?_⟩
    intro hc
    have h3 := h1.2
    simp only [Bool.not_eq_true'] at h3
    rw [← Bool.not_eq_true] at h3
    exact h3 (List.elem_iff.2 hc)
  · intro ⟨hmem, hnotin⟩
    refine List.mem_filter.2 ⟨List.mem_filter.2 ⟨hmem, ?_⟩, ?_⟩
    · simpa [bne_iff_ne] using hne file hmem
    · simp only [Bool.not_eq_true']
      rw [← Bool.not_eq_true]
      intro hc
      exact hnotin (List.elem_iff.1 hc)

/-- Witness for C3 at the spec's example: existing `{A, B, C}`, referenced
`{A, C}`, so membership in the delete list is as for the set difference. -/
theorem filesToDelete_eq_diff_witness :
    ("B.png" ∈ filesToDelete ["A.png", "B.png", "C.png"] [resolvedEx] ↔
      ("B.png" ∈ ["A.png", "B.png", "C.png"] ∧
        some "B.png" ∉ allFiles [resolvedEx])) :=
  filesToDelete_eq_diff ["A.png", "B.png", "C.png"] [resolvedEx] (by decide) "B.png"

/-- A successful `downloadAttachment` result's filepath lies under
`attachments/`. -/
theorem downloadAttachmentResult_data {att : Option Attachment} {role : String}
    {f : DownloadedFile} (h : downloadAttachmentResult att role = some f) :
    "attachments/".data <+: f.filepath.data := by
  cases att with
  | none => exact absurd h (by simp [downloadAttachmentResult])
  | some a =>
    have hf : f = ⟨a.id, attachmentPath role a, a.filename⟩ := by
      simpa [downloadAttachmentResult] using h.symm
    rw [hf]
    show "attachments/".data <+: (attachmentPath role a).data
    rw [attachmentPath, String.data_append]
    exact List.prefix_append _ _

/-- Every filepath of the download stage lies under `attachments/`. -/
theorem filePaths_under_attachments (records : List NormalizedRecord) :
    ∀ f ∈ filePaths records, "attachments/".data <+: f.filepath.data := by
  intro f hf
  rw [filePaths, List.mem_flatMap] at hf
  obtain ⟨r, _, hfr⟩ := hf
  rw [recordFilePaths, List.mem_filterMap] at hfr
  obtain ⟨o, ho, hoo⟩ := hfr
  simp only [id_eq] at hoo
  simp only [List.mem_cons, List.not_mem_nil, or_false] at ho
  rcases ho with h | h | h <;> subst h <;> exact downloadAttachmentResult_data hoo

/-- Every referenced asset path of the final snapshot of `dump-airtable.ts`
is absent or a path under `attachments/`. -/
theorem allFiles_output_under_attachments (records : List NormalizedRecord) :
    ∀ p ∈ allFiles (pipelineOutput records),
      p = none ∨ ∃ s, p = some s ∧ "attachments/".data <+: s.data := by
  intro p hp
  rw [allFiles, List.mem_flatMap] at hp
  obtain ⟨r, hr, hpr⟩ := hp
  have hr' : r ∈ records.map (resolveRecord (filePaths records)) := by
    rw [pipelineOutput, normalizedRecordsWithFilePaths] at hr
    exact List.mem_of_mem_filter (List.mem_of_mem_filter hr)
  rw [List.mem_map] at hr'
  obtain ⟨nr, _, hnr⟩ := hr'
  subst hnr
  have hfind : ∀ att, findById (filePaths records) att = p →
      p = none ∨ ∃ s, p = some s ∧ "attachments/".data <+: s.data := by
    intro att h
    cases att with
    | none => left; rw [← h]; rfl
    | some a =>
      cases hf : (filePaths records).find? (fun f => f.id == a.id) with
      | none => left; rw [← h]; simp [findById, hf]
      | some f =>
        right
        refine ⟨f.filepath, ?_, ?_⟩
        · rw [← h]; simp [findById, hf]
        · exact filePaths_under_attachments records f (List.mem_of_find?_eq_some hf)
  simp only [List.mem_cons, List.not_mem_nil, or_false] at hpr
  rcases hpr with h | h | h
  · exact hfind nr.about h.symm
  · exact hfind nr.ksaSampler h.symm
  · exact hfind nr.showcase h.symm

/-- A string cannot lie both under `attachments/` and under
`public/themes/attachments/`. -/
theorem attachments_glob_disjoint {s : String}
    (h : "attachments/".data <+: s.data)
    (h2 : "public/themes/attachments/".data <+: s.data) : False := by
  obtain ⟨t1, h1⟩ := h
  obtain ⟨t2, h2'⟩ := h2
  have ha : s.data.head? = some 'a' := by rw [← h1]; rfl
  have hp : s.data.head? = some 'p' := by rw [← h2']; rfl
  rw [ha] at hp
  exact absurd hp (by decide)

/-- A path under `public/themes/attachments/` is nonempty. -/
theorem glob_ne_empty {f : String}
    (h : "public/themes/attachments/".data <+: f.data) : f ≠ "" := by
  intro he
  subst he
  exact absurd h (by decide)

/-- Claim C4: in `dump-airtable.ts` every referenced path lies under
`attachments/` while the reconciler lists `public/themes/attachments/`,
so no referenced path equals a listed one and the delete list is the
entire listing. -/
theorem dump_reconciler_deletes_all_existing (records : List NormalizedRecord)
    (existing : List String)
    (hglob : ∀ f ∈ existing, "public/themes/attachments/".data <+: f.data) :
    (∀ p ∈ allFiles (pipelineOutput records), ∀ f ∈ existing, p ≠ some f) ∧
    filesToDelete existing (pipelineOutput records) = existing := by
  have hsep : ∀ p ∈ allFiles (pipelineOutput records), ∀ f ∈ existing, p ≠ some f := by
    intro p hp f hf he
    rcases allFiles_output_under_attachments records p hp with hnone | ⟨s, hs, hpre⟩
    · rw [hnone] at he; exact Option.noConfusion he
    · rw [hs] at he
      have hsf : s = f := Option.some.inj he
      subst hsf
      exact attachments_glob_disjoint hpre (hglob _ hf)
  refine ⟨hsep, ?_⟩
  unfold filesToDelete
  have h1 : existing.filter (fun f => f != "") = existing := by
    apply List.filter_eq_self.2
    intro f hf
    simpa [bne_iff_ne] using glob_ne_empty (hglob f hf)
  rw [h1]
  apply List.filter_eq_self.2
  intro f hf
  simp only [Bool.not_eq_true']
  rw [← Bool.not_eq_true]
  intro hc
  exact hsep _ (List.elem_iff.1 hc) f hf rfl

/-- Witness for C4 at a one-file glob listing and an empty record set. -/
theorem dump_reconciler_deletes_all_existing_witness :
    filesToDelete existGlob (pipelineOutput []) = existGlob :=
  (dump_reconciler_deletes_all_existing [] existGlob (by decide)).2

/-- Claim C6: with the remote manifest fetched, a local copy whose hash
equals the parsed checksum is skipped with no content fetch and no write;
a missing local copy or a hash mismatch fetches the content and writes
both the archive and the manifest. -/
theorem downloadArchive_skip_or_rewrite (hash : String → String)
    (remote : String → Option String) (fs : FS) (af m : String)
    (hman : remote (manifestUrl af) = some m) :
    (∀ c, fs (archivePath af) = some c → some (hash c) = parseMd5 m →
      downloadArchive hash remote fs af = ⟨fs, ["[INFO] skipped " ++ af], 0⟩) ∧
    (∀ body, remote (archiveUrl af) = some body →
      (fs (archivePath af) = none ∨
        ∃ c, fs (archivePath af) = some c ∧ some (hash c) ≠ parseMd5 m) →
      downloadArchive hash remote fs af =
        ⟨setFS (setFS fs (archivePath af) body) (archivePath af ++ ".md5") m,
         ["[INFO] downloaded " ++ af], 1⟩) := by
  constructor
  · intro c hc heq
    have hskip : (some (hash c) == parseMd5 m) = true := beq_iff_eq.mpr heq
    simp [downloadArchive, hman, hc, hskip]
  · intro body hbody hmiss
    rcases hmiss with hnone | ⟨c, hc, hne⟩
    · simp [downloadArchive, hman, hnone, hbody]
    · have hskip : (some (hash c) == parseMd5 m) = false := beq_eq_false_iff_ne.mpr hne
      simp [downloadArchive, hman, hc, hskip, hbody]

/-- Witness for C6: a local archive whose hash matches the manifest is
skipped with zero content fetches. -/
theorem downloadArchive_skip_or_rewrite_witness :
    downloadArchive hashW remoteArch fsArch "t.sit" =
      ⟨fsArch, ["[INFO] skipped " ++ "t.sit"], 0⟩ :=
  (downloadArchive_skip_or_rewrite hashW remoteArch fsArch "t.sit" "aa t.sit"
    (by decide)).1 "X" (by decide) (by decide)

/-- Claim C7: a failed manifest fetch for one archive is caught and logged
with the archive name, leaves the filesystem unchanged, and a sibling
archive in the same run is mirrored exactly as it would be alone. -/
theorem downloadArchive_fault_isolated (hash : String → String)
    (remote : String → Option String) (fs : FS) (a b : String)
    (hfail : remote (manifestUrl a) = none) :
    downloadArchive hash remote fs a =
      ⟨fs, ["[ERROR] could not download " ++ a], 0⟩ ∧
    runArchives hash remote fs [a, b] =
      ⟨(downloadArchive hash remote fs b).fs,
       ("[ERROR] could not download " ++ a) :: (downloadArchive hash remote fs b).log,
       (downloadArchive hash remote fs b).contentFetches⟩ := by
  have h1 : downloadArchive hash remote fs a =
      ⟨fs, ["[ERROR] could not download " ++ a], 0⟩ := by
    simp [downloadArchive, hfail]
  refine ⟨h1, ?_⟩
  simp [runArchives, h1]

/-- Witness for C7: with every fetch failing on the first archive, the
second archive's mirror operation is untouched by the first's failure. -/
theorem downloadArchive_fault_isolated_witness :
    runArchives hashW remoteFail fsEmpty ["x.sit", "y.sit"] =
      ⟨(downloadArchive hashW remoteFail fsEmpty "y.sit").fs,
       ("[ERROR] could not download " ++ "x.sit") ::
         (downloadArchive hashW remoteFail fsEmpty "y.sit").log,
       (downloadArchive hashW remoteFail fsEmpty "y.sit").contentFetches⟩ :=
  (downloadArchive_fault_isolated hashW remoteFail fsEmpty "x.sit" "y.sit" rfl).2

/-- The descriptor returned by an effectful attachment download is
independent of the filesystem and network state. -/
theorem downloadAttachmentFS_result (remote : String → String) (fs : FS)
    (att : Option Attachment) (role : String) :
    (downloadAttachmentFS remote fs att role).result =
      downloadAttachmentResult att role := by
  cases att with
  | none => rfl
  | some a =>
    cases hfs : fs (attachmentPath role a) <;>
      simp [downloadAttachmentFS, hfs, downloadAttachmentResult]

/-- An attachment download never removes an existing file. -/
theorem downloadAttachmentFS_mono (remote : String → String) (fs : FS)
    (att : Option Attachment) (role : String) (q : String)
    (h : (fs q).isSome) :
    ((downloadAttachmentFS remote fs att role).fs q).isSome := by
  cases att with
  | none => exact h
  | some a =>
    cases hfs : fs (attachmentPath role a) with
    | some c => simpa [downloadAttachmentFS, hfs] using h
    | none =>
      simp only [downloadAttachmentFS, hfs, setFS]
      by_cases hq : q = attachmentPath role a
      · simp [hq]
      · simpa [hq] using h

/-- After downloading an attachment its deterministic path holds a file. -/
theorem downloadAttachmentFS_post (remote : String → String) (fs : FS)
    (a : Attachment) (role : String) :
    ((downloadAttachmentFS remote fs (some a) role).fs
      (attachmentPath role a)).isSome := by
  cases hfs : fs (attachmentPath role a) with
  | some c => simp [downloadAttachmentFS, hfs]
  | none => simp [downloadAttachmentFS, hfs, setFS]

/-- On a warm attachment the download returns the descriptor with no fetch
and an unchanged filesystem. -/
theorem downloadAttachmentFS_warm (remote : String → String) (fs : FS)
    (att : Option Attachment) (role : String) (h : warmAtt fs role att = true) :
    downloadAttachmentFS remote fs att role =
      ⟨fs, downloadAttachmentResult att role, 0⟩ := by
  cases att with
  | none => rfl
  | some a =>
    cases hfs : fs (attachmentPath role a) with
    | some c => simp [downloadAttachmentFS, hfs, downloadAttachmentResult]
    | none => simp [warmAtt, hfs] at h

/-- Warmth of an attachment is preserved by any filesystem growth. -/
theorem warmAtt_mono {fs fs' : FS} (role : String) (att : Option Attachment)
    (hmono : ∀ q, (fs q).isSome → (fs' q).isSome)
    (h : warmAtt fs role att = true) : warmAtt fs' role att = true := by
  cases att with
  | none => rfl
  | some a =>
    simp only [warmAtt] at h ⊢
    exact hmono _ h

/-- The download stage never removes an existing file. -/
theorem runDownloads_mono (remote : String → String) (rs : List NormalizedRecord) :
    ∀ (fs : FS) (q : String), (fs q).isSome →
      ((runDownloads remote fs rs).1 q).isSome := by
  induction rs with
  | nil => intro fs q h; exact h
  | cons r rs ih =>
    intro fs q h
    simp only [runDownloads]
    exact ih _ q (downloadAttachmentFS_mono _ _ _ _ q
      (downloadAttachmentFS_mono _ _ _ _ q
        (downloadAttachmentFS_mono _ _ _ _ q h)))

/-- After a record's three role downloads, all three roles are warm. -/
theorem record_warm_after (remote : String → String) (fs : FS)
    (r : NormalizedRecord) :
    (warmAtt (downloadAttachmentFS remote
        (downloadAttachmentFS remote
          (downloadAttachmentFS remote fs r.about "about-").fs
          r.ksaSampler "ksa-sampler-").fs
        r.showcase "showcase-").fs "about-" r.about = true) ∧
    (warmAtt (downloadAttachmentFS remote
        (downloadAttachmentFS remote
          (downloadAttachmentFS remote fs r.about "about-").fs
          r.ksaSampler "ksa-sampler-").fs
        r.showcase "showcase-").fs "ksa-sampler-" r.ksaSampler = true) ∧
    (warmAtt (downloadAttachmentFS remote
        (downloadAttachmentFS remote
          (downloadAttachmentFS remote fs r.about "about-").fs
          r.ksaSampler "ksa-sampler-").fs
        r.showcase "showcase-").fs "showcase-" r.showcase = true) := by
  refine ⟨?_, ?_, ?_⟩
  · cases ha : r.about with
    | none => rfl
    | some a =>
      simp only [warmAtt]
      apply downloadAttachmentFS_mono
      apply downloadAttachmentFS_mono
      exact downloadAttachmentFS_post remote fs a "about-"
  · cases hk : r.ksaSampler with
    | none => rfl
    | some a =>
      simp only [warmAtt]
      apply downloadAttachmentFS_mono
      exact downloadAttachmentFS_post remote _ a "ksa-sampler-"
  · cases hs : r.showcase with
    | none => rfl
    | some a =>
      simp only [warmAtt]
      exact downloadAttachmentFS_post remote _ a "showcase-"

/-- After a full download stage the filesystem is warm for every record. -/
theorem runDownloads_warm (remote : String → String) (rs : List NormalizedRecord) :
    ∀ fs : FS, warmFor (runDownloads remote fs rs).1 rs = true := by
  induction rs with
  | nil => intro fs; rfl
  | cons r rs ih =>
    intro fs
    have hrec := record_warm_after remote fs r
    simp only [runDownloads, warmFor, List.all_cons, Bool.and_eq_true]
    have hmono : ∀ q, (((downloadAttachmentFS remote
        (downloadAttachmentFS remote
          (downloadAttachmentFS remote fs r.about "about-").fs
          r.ksaSampler "ksa-sampler-").fs
        r.showcase "showcase-").fs) q).isSome →
        (((runDownloads remote (downloadAttachmentFS remote
          (downloadAttachmentFS remote
            (downloadAttachmentFS remote fs r.about "about-").fs
            r.ksaSampler "ksa-sampler-").fs
          r.showcase "showcase-").fs rs).1) q).isSome :=
      fun q h => runDownloads_mono remote rs _ q h
    exact ⟨⟨⟨warmAtt_mono _ _ hmono hrec.1, warmAtt_mono _ _ hmono hrec.2.1⟩,
      warmAtt_mono _ _ hmono hrec.2.2⟩, ih _⟩

/-- On a warm filesystem the download stage changes nothing, performs zero
fetches, and returns the pure descriptor list. -/
theorem runDownloads_of_warm (remote : String → String) (rs : List NormalizedRecord) :
    ∀ fs : FS, warmFor fs rs = true →
      runDownloads remote fs rs = (fs, filePaths rs, 0) := by
  induction rs with
  | nil => intro fs _; rfl
  | cons r rs ih =>
    intro fs h
    simp only [warmFor, List.all_cons, Bool.and_eq_true] at h
    obtain ⟨⟨⟨ha, hk⟩, hs⟩, htail⟩ := h
    have e1 := downloadAttachmentFS_warm remote fs r.about "about-" ha
    have e2 := downloadAttachmentFS_warm remote fs r.ksaSampler "ksa-sampler-" hk
    have e3 := downloadAttachmentFS_warm remote fs r.showcase "showcase-" hs
    have etail := ih fs htail
    simp only [runDownloads, e1, e2, e3, etail]
    simp [filePaths, recordFilePaths]

/-- The descriptor list of a download stage is the pure `filePaths` list,
independent of the starting filesystem. -/
theorem runDownloads_files (remote : String → String) (rs : List NormalizedRecord) :
    ∀ fs : FS, (runDownloads remote fs rs).2.1 = filePaths rs := by
  induction rs with
  | nil => intro fs; rfl
  | cons r rs ih =>
    intro fs
    simp only [runDownloads]
    rw [downloadAttachmentFS_result, downloadAttachmentFS_result,
      downloadAttachmentFS_result, ih]
    simp [filePaths, recordFilePaths]

/-- Claim C8: a file already present at the deterministic path short-cuts
the download with no fetch and no write; a second full download stage over
a warm filesystem performs zero fetches, leaves the filesystem unchanged,
and yields the same descriptor list — hence an identical snapshot. -/
theorem downloadAttachment_idempotent (remote : String → String) (fs : FS)
    (rs : List NormalizedRecord) (a : Attachment) (role : String) (c : String) :
    (fs (attachmentPath role a) = some c →
      downloadAttachmentFS remote fs (some a) role =
        ⟨fs, some ⟨a.id, attachmentPath role a, a.filename⟩, 0⟩) ∧
    (runDownloads remote (runDownloads remote fs rs).1 rs =
      ((runDownloads remote fs rs).1, filePaths rs, 0)) ∧
    ((runDownloads remote fs rs).2.1 = filePaths rs) ∧
    (normalizedRecordsWithFilePaths
        (runDownloads remote (runDownloads remote fs rs).1 rs).2.1 rs =
      normalizedRecordsWithFilePaths ((runDownloads remote fs rs).2.1) rs) := by
  have hwarm := runDownloads_warm remote rs fs
  have hsecond := runDownloads_of_warm remote rs (runDownloads remote fs rs).1 hwarm
  refine ⟨?_, hsecond, runDownloads_files remote rs fs, ?_⟩
  · intro hc
    have hw := downloadAttachmentFS_warm remote fs (some a) role (by simp [warmAtt, hc])
    simpa [downloadAttachmentResult] using hw
  · rw [hsecond, runDownloads_files remote rs fs]

/-- Witness for C8: with the file already present at the deterministic
path, the download returns the descriptor and performs zero fetches. -/
theorem downloadAttachment_idempotent_witness :
    downloadAttachmentFS remoteB fsWarm (some attW) "about-" =
      ⟨fsWarm, some ⟨attW.id, attachmentPath "about-" attW, attW.filename⟩, 0⟩ :=
  (downloadAttachment_idempotent remoteB fsWarm [] attW "about-" "B").1 (by decide)

end MacThemes

